import Mathlib

/-!
Verification of the record-store access layer of a member web application.

The development shallowly embeds the data-access layer: the credential
resolver (airtableConfig), the schema resolver with its time-boxed cache
(airtableSchema), the record client (airtable: pagination, fetch error
handling, filter-formula construction, attachment extraction) and the
view-mapper text coercion, then proves the documented contracts about
those embeddings.

Conventions of the embedding:
- JavaScript values reaching the dynamic helpers are modelled by the
  inductive type `JsValue` (strings, numbers, booleans, null, undefined,
  arrays, objects-as-association-lists), with JavaScript truthiness made
  explicit.
- Asynchronous HTTP is modelled by passing the response (or the page
  sequence a store would serve) as an explicit argument, and each
  operation reports how many network requests it issued.
- The schema cache is explicit state: an optional entry carrying the
  fetch timestamp, threaded through `getMeta`.
-/

/-- A single quote character, used by the filter-formula builder to quote
record identifiers. -/
def singleQuote : String := Char.toString (Char.ofNat 39)

/-- Embedding of JavaScript `String.prototype.trim`: strip leading and
trailing whitespace. -/
def jsTrim (s : String) : String :=
  String.mk (((s.data.dropWhile Char.isWhitespace).reverse.dropWhile
    Char.isWhitespace).reverse)

/-- Model of a dynamically-typed JavaScript value as it reaches the
field-normalization helpers. Objects are association lists from property
name to value; a missing property reads as `undefined`. -/
inductive JsValue where
  | str (s : String)
  | num (n : Int)
  | boolean (b : Bool)
  | null
  | undefined
  | arr (elems : List JsValue)
  | obj (props : List (String × JsValue))

/-- JavaScript truthiness of a value (`if (v)`). -/
def JsValue.truthy : JsValue → Bool
  | .str s => s ≠ ""
  | .num n => n ≠ 0
  | .boolean b => b
  | .null => false
  | .undefined => false
  | .arr _ => true
  | .obj _ => true

/-- Property access `v[key]` on a JavaScript value: defined only on
objects, `undefined` everywhere else (in particular on arrays, whose
named properties are absent here). -/
def JsValue.prop : JsValue → String → JsValue
  | .obj props, key =>
      match List.lookup key props with
      | some v => v
      | none => .undefined
  | _, _ => .undefined

/-- `typeof v === "object" && v` (truthy object check): true exactly for
arrays and objects, since `null` is falsy. -/
def JsValue.isTruthyObject : JsValue → Bool
  | .arr _ => true
  | .obj _ => true
  | _ => false

/-- The array branch of `coerceToText`: map each element to its trimmed
string (non-strings to `""`), drop the empty parts, join with single
spaces and trim the result. -/
def joinStringParts (xs : List JsValue) : String :=
  jsTrim (String.intercalate " "
    ((xs.map fun v => match v with | .str s => jsTrim s | _ => "").filter
      (fun s => s != "")))

/-- The object-candidate probe of `coerceToText`: a candidate value
yields text if it is a string with non-empty trim, or an array whose
joined parts are non-empty; otherwise it yields nothing and the probe
moves to the next candidate. -/
def candidateText (v : JsValue) : Option String :=
  match v with
  | .str s => if jsTrim s != "" then some (jsTrim s) else none
  | .arr xs => let s := joinStringParts xs; if s != "" then some s else none
  | _ => none

/-- Walk the candidate list in priority order, returning the first
candidate that yields text, or `""` when none does. -/
def probeCandidates : List JsValue → String
  | [] => ""
  | c :: rest =>
      match candidateText c with
      | some s => s
      | none => probeCandidates rest

/-- Embedding of `coerceToText` (MemberContent view mapper): strings are
trimmed; `null`/`undefined` give `""`; arrays join their trimmed string
elements; objects are probed for the keys `text`, `value`, `plain_text`,
`content`, `description` in that order; anything else gives `""`. -/
def coerceToText (value : JsValue) : String :=
  match value with
  | .str s => jsTrim s
  | .null => ""
  | .undefined => ""
  | .arr xs => joinStringParts xs
  | .obj ps =>
      probeCandidates
        [JsValue.prop (.obj ps) "text", JsValue.prop (.obj ps) "value",
         JsValue.prop (.obj ps) "plain_text", JsValue.prop (.obj ps) "content",
         JsValue.prop (.obj ps) "description"]
  | _ => ""

/-- One mapped entry of `getAttachmentArray`: a truthy object whose
`id`, `url` and `filename` properties are all truthy maps to the triple
of those property values; every other entry maps to `none` (the `null`
the source filters out). -/
def extractAttachment (a : JsValue) : Option (JsValue × JsValue × JsValue) :=
  if a.isTruthyObject then
    let i := a.prop "id"
    let u := a.prop "url"
    let f := a.prop "filename"
    if i.truthy && u.truthy && f.truthy then some (i, u, f) else none
  else none

/-- Embedding of `getAttachmentArray`: non-arrays yield `[]`; an array
is mapped entry-wise by `extractAttachment` and the `none` results are
filtered out (`.map(...).filter(Boolean)`). -/
def getAttachmentArray (fieldValue : JsValue) : List (JsValue × JsValue × JsValue) :=
  match fieldValue with
  | .arr es => (es.map extractAttachment).reduceOption
  | _ => []

/-- The predicate under which `getAttachmentArray` keeps an entry: it is
a (truthy) object exposing all three of `id`, `url` and `filename` with
truthy values. -/
def exposesAttachmentTriple (a : JsValue) : Bool :=
  a.isTruthyObject && (a.prop "id").truthy && (a.prop "url").truthy
    && (a.prop "filename").truthy

/-- The equality predicate the filter-formula builder emits for one
record identifier: the identifier is interpolated verbatim between
single quotes, with no escaping. -/
def recordIdPredicate (recordId : String) : String :=
  "RECORD_ID()=" ++ singleQuote ++ recordId ++ singleQuote

/-- The `filterByFormula` built by `listRecordsByIds`: the per-identifier
predicates joined by commas inside `OR(...)`. -/
def recordIdsFormula (recordIds : List String) : String :=
  "OR(" ++ String.intercalate "," (recordIds.map recordIdPredicate) ++ ")"

/-- The observable shape of the single `listRecords` request that
`listRecordsByIds` issues. -/
structure IdsListRequest where
  filterByFormula : String
  fields : List String
  pageSize : Nat
deriving DecidableEq

/-- Embedding of `listRecordsByIds`, reduced to its own logic: an empty
identifier list short-circuits to no request (the caller receives
`{records: []}`); a non-empty list issues exactly one `listRecords`
request carrying the OR formula, the requested fields and page size
100. -/
def listRecordsByIds (recordIds : List String) (fields : List String) :
    Option IdsListRequest :=
  if recordIds.isEmpty then none
  else some { filterByFormula := recordIdsFormula recordIds,
              fields := fields, pageSize := 100 }

/-- One page served by the record store: the page records together with
the continuation token (`offset`), absent on the last page. -/
structure PageResponse (α : Type) where
  records : List α
  offset : Option String
deriving DecidableEq

/-- The pagination loop of `listAllRecords` over the sequence of pages
the store serves, with the accumulated records so far. `maxRecords = 0`
models the absent/falsy option. Returns the final record list and the
number of page requests issued. On each iteration the loop appends the
page records, truncates and stops once a set `maxRecords` is reached,
and otherwise continues exactly when the page carries an offset. -/
def listAllLoop {α : Type} (maxRecords : Nat) :
    List (PageResponse α) → List α → List α × Nat
  | [], out => (out, 0)
  | page :: rest, out =>
      let out2 := out ++ page.records
      if 0 < maxRecords ∧ maxRecords ≤ out2.length then
        (out2.take maxRecords, 1)
      else
        match page.offset with
        | none => (out2, 1)
        | some _ =>
            let r := listAllLoop maxRecords rest out2
            (r.1, r.2 + 1)

/-- Embedding of `listAllRecords` run against a store that would serve
the given page sequence: the accumulated records and the number of page
requests issued. -/
def listAllRecords {α : Type} (pages : List (PageResponse α)) (maxRecords : Nat) :
    List α × Nat :=
  listAllLoop maxRecords pages []

/-- Failure taxonomy of the fetch helpers: a missing credential (thrown
before any network call) or a non-success HTTP response (thrown after
the call, carrying the formatted message). -/
inductive FetchError where
  | authMissing (message : String)
  | httpError (message : String)
deriving DecidableEq

/-- The HTTP response the platform would hand back for a request:
status code, body text (empty when reading the body failed), status
text, and the JSON payload as parsed on success. -/
structure HttpResponse (α : Type) where
  status : Nat
  body : String
  statusText : String
  parsed : α

/-- `Response.ok` of the platform fetch API: status in [200, 300). -/
def HttpResponse.ok {α : Type} (r : HttpResponse α) : Bool :=
  decide (200 ≤ r.status) && decide (r.status < 300)

/-- Outcome of a fetch helper: the returned value or thrown error, and
the number of network calls issued. -/
structure FetchOutcome (α : Type) where
  result : Except FetchError α
  networkCalls : Nat

/-- Embedding of `airtableFetch` (record client): a falsy token (null or
empty) throws the configuration error with no network call; otherwise
one request is made, a non-2xx response throws the formatted error
retaining the status and the body (falling back to the status text when
the body is empty), and a 2xx response returns the parsed JSON. -/
def airtableFetch {α : Type} (token : Option String) (response : HttpResponse α) :
    FetchOutcome α :=
  match token with
  | none => ⟨.error (.authMissing "Airtable API key not configured"), 0⟩
  | some t =>
      if t = "" then
        ⟨.error (.authMissing "Airtable API key not configured"), 0⟩
      else if response.ok then
        ⟨.ok response.parsed, 1⟩
      else
        ⟨.error (.httpError ("Airtable error " ++ toString response.status ++ ": "
          ++ (if response.body = "" then response.statusText else response.body))), 1⟩

/-- Embedding of the statically embedded development fallback token. -/
def DEV_FALLBACK_PAT : String :=
  "patzYKgOjdaLI4zCp.a43d1ad432e49a3db231a07f3330636b65595d4db77edfed12f95c0a17f49e89"

/-- The final step of the credential chain, `DEV_FALLBACK_PAT || null`. -/
def fallbackPatOrNull : Option String :=
  if DEV_FALLBACK_PAT = "" then none else some DEV_FALLBACK_PAT

/-- The window-injection step of the credential chain: a truthy
(non-empty) injected value is returned as-is, otherwise the chain falls
through to the static fallback. -/
def windowTokenOrFallback (injected : Option String) : Option String :=
  match injected with
  | some w => if w ≠ "" then some w else fallbackPatOrNull
  | none => fallbackPatOrNull

/-- Embedding of `getAirtableToken`. The local-storage read is passed
explicitly: `.error ()` models a thrown storage read, `.ok none` a
missing key, `.ok (some s)` a stored string; a stored string is trimmed
and used only if the trim is non-empty, and every other case (including
the thrown read) falls through to the window injection and then the
static fallback. -/
def getAirtableToken (storageRead : Except Unit (Option String))
    (injected : Option String) : Option String :=
  match storageRead with
  | .ok (some ls) =>
      if jsTrim ls ≠ "" then some (jsTrim ls) else windowTokenOrFallback injected
  | _ => windowTokenOrFallback injected

/-- One field of a table in the metadata response. -/
structure MetaField where
  id : String
  name : String
  ftype : String
deriving DecidableEq

/-- One table in the metadata response. -/
structure MetaTable where
  id : String
  name : String
  fields : List MetaField
deriving DecidableEq

/-- The metadata response: the base's table list. -/
structure MetaResponse where
  tables : List MetaTable
deriving DecidableEq

/-- Embedding of `fetchMeta` (schema resolver): same contract as
`airtableFetch` with the metadata error messages. -/
def fetchMeta (token : Option String) (response : HttpResponse MetaResponse) :
    FetchOutcome MetaResponse :=
  match token with
  | none => ⟨.error (.authMissing
      "Airtable PAT not found. Set it with localStorage.setItem(\"AIRTABLE_PAT\", \"your_pat\")."), 0⟩
  | some t =>
      if t = "" then
        ⟨.error (.authMissing
          "Airtable PAT not found. Set it with localStorage.setItem(\"AIRTABLE_PAT\", \"your_pat\")."), 0⟩
      else if response.ok then
        ⟨.ok response.parsed, 1⟩
      else
        ⟨.error (.httpError ("Airtable Metadata error " ++ toString response.status ++ ": "
          ++ (if response.body = "" then response.statusText else response.body))), 1⟩

/-- The schema-cache freshness window, 5 minutes in milliseconds. -/
def META_CACHE_TTL_MS : Int := 5 * 60 * 1000

/-- A persisted schema-cache entry: fetch timestamp and cached payload. -/
structure MetaCacheEntry where
  fetchedAt : Int
  data : MetaResponse
deriving DecidableEq

/-- Outcome of one `getMeta` resolution: the metadata it returns, the
cache state it leaves behind, and how many metadata HTTP calls it
issued. -/
structure GetMetaOutcome where
  data : MetaResponse
  cache : Option MetaCacheEntry
  httpCalls : Nat
deriving DecidableEq

/-- Embedding of `getMeta`: a persisted entry younger than the freshness
window is returned with no HTTP call and the cache left untouched;
otherwise (no readable entry, or a stale one) the metadata endpoint is
called once and the cache is overwritten with the fresh payload stamped
at the current time. The absent-entry case also models a failed cache
read, which the source swallows. -/
def getMeta (now : Int) (cache : Option MetaCacheEntry) (fetched : MetaResponse) :
    GetMetaOutcome :=
  match cache with
  | some entry =>
      if now - entry.fetchedAt < META_CACHE_TTL_MS then
        ⟨entry.data, some entry, 0⟩
      else
        ⟨fetched, some ⟨now, fetched⟩, 1⟩
  | none => ⟨fetched, some ⟨now, fetched⟩, 1⟩

/-- Embedding of `resolveTableIdByName`, parameterized by the metadata
the resolver obtained: first table with the exact name, or the
table-not-found error. -/
def resolveTableIdByName (meta : MetaResponse) (tableName : String) :
    Except String String :=
  match meta.tables.find? (fun t => t.name == tableName) with
  | some t => .ok t.id
  | none => .error ("Airtable table not found by name: " ++ tableName)

/-- Embedding of `resolveFieldIdByNames`: find the table by exact name,
then the field by exact name within it, with the corresponding
not-found errors. -/
def resolveFieldIdByNames (meta : MetaResponse) (tableName fieldName : String) :
    Except String String :=
  match meta.tables.find? (fun t => t.name == tableName) with
  | none => .error ("Airtable table not found by name: " ++ tableName)
  | some t =>
      match t.fields.find? (fun f => f.name == fieldName) with
      | some f => .ok f.id
      | none => .error ("Airtable field not found: " ++ tableName ++ "." ++ fieldName)

/-- Character-level pass of the slug derivation: lowercase alphanumerics
are kept (after case-folding), and every maximal run of other
characters is collapsed to a single separator; the boolean records
whether the previous output character was the separator. -/
def slugifyAux : List Char → Bool → List Char
  | [], _ => []
  | c :: cs, prevSep =>
      let lc := c.toLower
      if lc.isLower || lc.isDigit then lc :: slugifyAux cs false
      else if prevSep then slugifyAux cs true
      else '-' :: slugifyAux cs true

/-- Modelled from the spec: the slug helper `slugify` lives in
`src/lib/slug.ts`, which is imported by the pages but is not part of
the repository snapshot. The spec describes it as deriving the slug
deterministically from the display title alone, case-folded, with
non-alphanumeric runs collapsed to a single separator. -/
def slugify (title : String) : String :=
  String.mk (slugifyAux title.data false)

/-- Whether a character list does not start with the separator. -/
def headNotDash : List Char → Bool
  | [] => true
  | c :: _ => !(c == '-')

/-- Whether a character list never has two adjacent separators. -/
def noAdjacentSeparators : List Char → Bool
  | [] => true
  | a :: rest => (!(a == '-') || headNotDash rest) && noAdjacentSeparators rest

/-- Whether a fetch outcome is the missing-credential failure. -/
def FetchOutcome.isAuthMissing {α : Type} (o : FetchOutcome α) : Bool :=
  match o.result with
  | .error (.authMissing _) => true
  | _ => false

/-- Helper: with no record cap, the pagination loop concatenates, page by
page, every page up to and including the first page without a
continuation token, and issues one request per page consumed. -/
theorem listAllLoop_concat {α : Type} (ps : List (PageResponse α))
    (lastPage : PageResponse α) (acc : List α)
    (hps : ∀ p ∈ ps, p.offset ≠ none) (hlast : lastPage.offset = none) :
    listAllLoop 0 (ps ++ [lastPage]) acc
      = (acc ++ ((ps ++ [lastPage]).map PageResponse.records).flatten, ps.length + 1) := by
  induction ps generalizing acc with
  | nil =>
      simp [listAllLoop, hlast]
  | cons p ps ih =>
      obtain ⟨o, ho⟩ : ∃ o, p.offset = some o := by
        cases h : p.offset with
        | none => exact absurd h (hps p (by simp))
        | some o => exact ⟨o, rfl⟩
      have hrec := ih (acc ++ p.records) (fun q hq => hps q (List.mem_cons_of_mem p hq))
      simp [listAllLoop, ho, hrec]

/-- Helper: `find?` on a key-distinct list locates exactly the member
carrying the queried key. -/
theorem find?_key_of_mem {α : Type} (key : α → String) (l : List α) (x : α)
    (hnd : (l.map key).Nodup) (hx : x ∈ l) :
    l.find? (fun y => key y == key x) = some x := by
  induction l with
  | nil => cases hx
  | cons a l ih =>
      rcases List.mem_cons.mp hx with rfl | hmem
      · simp [List.find?]
      · rw [List.map_cons, List.nodup_cons] at hnd
        have hne : (key a == key x) = false := by
          rw [beq_eq_false_iff_ne]
          intro h
          exact hnd.1 (h ▸ List.mem_map_of_mem key hmem)
        rw [List.find?_cons, hne]
        exact ih hnd.2 hmem

/-- Helper: one attachment entry is kept exactly when it exposes all
three attachment properties with truthy values. -/
theorem extractAttachment_eq (a : JsValue) :
    extractAttachment a = if exposesAttachmentTriple a
      then some (a.prop "id", a.prop "url", a.prop "filename") else none := by
  unfold extractAttachment exposesAttachmentTriple
  by_cases h1 : a.isTruthyObject <;>
    by_cases h2 : (a.prop "id").truthy <;>
      by_cases h3 : (a.prop "url").truthy <;>
        by_cases h4 : (a.prop "filename").truthy <;>
          simp [h1, h2, h3, h4]

/-- Helper: mapping then dropping the `none` results is filtering by the
exposure predicate and projecting the triples. -/
theorem getAttachmentArray_arr (es : List JsValue) :
    getAttachmentArray (.arr es)
      = (es.filter exposesAttachmentTriple).map
          (fun a => (a.prop "id", a.prop "url", a.prop "filename")) := by
  induction es with
  | nil => rfl
  | cons a es ih =>
      simp only [getAttachmentArray, List.map_cons, List.reduceOption,
        List.filterMap_cons] at ih ⊢
      rw [extractAttachment_eq]
      by_cases h : exposesAttachmentTriple a <;> simp [h, ih]

/-- Helper: every character the slug pass emits is a lowercase letter, a
digit, or the separator. -/
theorem slugifyAux_all (cs : List Char) (b : Bool) :
    (slugifyAux cs b).all (fun c => c.isLower || c.isDigit || c == '-') = true := by
  induction cs generalizing b with
  | nil => rfl
  | cons c cs ih =>
      by_cases h : (c.toLower.isLower || c.toLower.isDigit) = true
      · simp [slugifyAux, h, ih]
      · cases b
        · simp [slugifyAux, h, ih]
        · simp [slugifyAux, h, ih]

/-- Helper: the slug pass never emits two adjacent separators, and when
it starts in separator state it does not begin with one. -/
theorem slugifyAux_sep (cs : List Char) (b : Bool) :
    noAdjacentSeparators (slugifyAux cs b) = true
      ∧ (b = true → headNotDash (slugifyAux cs b) = true) := by
  induction cs generalizing b with
  | nil => exact ⟨rfl, fun _ => rfl⟩
  | cons c cs ih =>
      by_cases h : (c.toLower.isLower || c.toLower.isDigit) = true
      · have hds : (c.toLower == '-') = false := by
          by_cases hd : c.toLower = '-'
          · rw [hd] at h; exact absurd h (by decide)
          · exact beq_eq_false_iff_ne.mpr hd
        refine ⟨?_, fun _ => ?_⟩
        · simp [slugifyAux, h, noAdjacentSeparators, hds, (ih false).1]
        · simp [slugifyAux, h, headNotDash, hds]
      · cases b with
        | true =>
            refine ⟨?_, fun _ => ?_⟩
            · simpa [slugifyAux, h] using (ih true).1
            · simpa [slugifyAux, h] using (ih true).2 rfl
        | false =>
            refine ⟨?_, fun hb => ?_⟩
            · simp [slugifyAux, h, noAdjacentSeparators, (ih true).1,
                (ih true).2 rfl]
            · exact absurd hb (by decide)

/-- Claim C1 (counterexample): identifiers are not escaped, so an
identifier containing a quote character can change the structure of the
formula: a single identifier embedding a quote and a comma produces the
very same request as the two-identifier list, so the formula does not
contain one predicate per given identifier. -/
theorem listRecordsByIds_quote_breaks_structure :
    listRecordsByIds ["a" ++ singleQuote ++ ",RECORD_ID()=" ++ singleQuote ++ "b"] []
      = listRecordsByIds ["a", "b"] []
    ∧ ["a" ++ singleQuote ++ ",RECORD_ID()=" ++ singleQuote ++ "b"] ≠ ["a", "b"] :=
  ⟨rfl, by decide⟩

/-- Claim C1 (amended): for every non-empty identifier list,
`listRecordsByIds` issues one request whose `filterByFormula` is the
comma-joined disjunction of per-identifier `RECORD_ID()` equality
predicates, each identifier interpolated verbatim between single quotes
with no escaping (so a quote character in an identifier can change the
structure of the formula). -/
theorem listRecordsByIds_formula (recordIds : List String) (fields : List String)
    (h : recordIds ≠ []) :
    listRecordsByIds recordIds fields
      = some { filterByFormula :=
                 "OR(" ++ String.intercalate ","
                   (recordIds.map (fun i =>
                     "RECORD_ID()=" ++ singleQuote ++ i ++ singleQuote)) ++ ")",
               fields := fields, pageSize := 100 } := by
  simp only [listRecordsByIds, List.isEmpty_eq_true, h, if_false, recordIdsFormula]
  rfl

/-- Witness for the amended C1 theorem at a concrete two-identifier
list. -/
theorem listRecordsByIds_formula_witness :
    listRecordsByIds ["x1", "x2"] ["f"]
      = some { filterByFormula :=
                 "OR(" ++ String.intercalate ","
                   (["x1", "x2"].map (fun i =>
                     "RECORD_ID()=" ++ singleQuote ++ i ++ singleQuote)) ++ ")",
               fields := ["f"], pageSize := 100 } :=
  listRecordsByIds_formula ["x1", "x2"] ["f"] (by decide)

set_option maxRecDepth 10000

/-- Claim C2: `listAllRecords` follows the continuation token until it
is absent and returns the concatenation of the pages in original order,
issuing one request per consumed page; the 3-page store with sizes
100/100/37 yields exactly 237 records in order in 3 requests, and with
`maxRecords = 150` exactly the first 150 records in 2 requests (no
further request once the count is reached mid-page). -/
theorem listAllRecords_follows_offsets :
    (∀ (α : Type) (ps : List (PageResponse α)) (lastPage : PageResponse α),
        (∀ p ∈ ps, p.offset ≠ none) → lastPage.offset = none →
        listAllRecords (ps ++ [lastPage]) 0
          = (((ps ++ [lastPage]).map PageResponse.records).flatten, ps.length + 1))
    ∧ listAllRecords
        ([⟨List.range 100, some "o1"⟩,
          ⟨(List.range 100).map (fun n => 100 + n), some "o2"⟩,
          ⟨(List.range 37).map (fun n => 200 + n), none⟩] : List (PageResponse Nat)) 0
        = (List.range 237, 3)
    ∧ listAllRecords
        ([⟨List.range 100, some "o1"⟩,
          ⟨(List.range 100).map (fun n => 100 + n), some "o2"⟩,
          ⟨(List.range 37).map (fun n => 200 + n), none⟩] : List (PageResponse Nat)) 150
        = (List.range 150, 2) := by
  refine ⟨fun α ps lastPage hps hlast => ?_, by decide, by decide⟩
  simpa [listAllRecords] using listAllLoop_concat ps lastPage [] hps hlast

/-- Witness for C2 at a concrete two-page store. -/
theorem listAllRecords_follows_offsets_witness :
    listAllRecords ([⟨[5], some "t"⟩, ⟨[7], none⟩] : List (PageResponse Nat)) 0
      = ([5, 7], 2) :=
  listAllRecords_follows_offsets.1 Nat [⟨[5], some "t"⟩] ⟨[7], none⟩
    (by decide) rfl

/-- Claim C3: for every metadata response, tables and fields present in
it (under distinct names) resolve to exactly the identifier the
response gave them, and names absent from it fail with the
corresponding not-found error. -/
theorem resolveIds_exact :
    (∀ (meta : MetaResponse) (t : MetaTable),
        (meta.tables.map MetaTable.name).Nodup → t ∈ meta.tables →
        resolveTableIdByName meta t.name = .ok t.id)
    ∧ (∀ (meta : MetaResponse) (n : String),
        (∀ t ∈ meta.tables, t.name ≠ n) →
        resolveTableIdByName meta n
          = .error ("Airtable table not found by name: " ++ n))
    ∧ (∀ (meta : MetaResponse) (t : MetaTable) (f : MetaField),
        (meta.tables.map MetaTable.name).Nodup → t ∈ meta.tables →
        (t.fields.map MetaField.name).Nodup → f ∈ t.fields →
        resolveFieldIdByNames meta t.name f.name = .ok f.id)
    ∧ (∀ (meta : MetaResponse) (t : MetaTable) (fn : String),
        (meta.tables.map MetaTable.name).Nodup → t ∈ meta.tables →
        (∀ fl ∈ t.fields, fl.name ≠ fn) →
        resolveFieldIdByNames meta t.name fn
          = .error ("Airtable field not found: " ++ t.name ++ "." ++ fn))
    ∧ (∀ (meta : MetaResponse) (n fn : String),
        (∀ t ∈ meta.tables, t.name ≠ n) →
        resolveFieldIdByNames meta n fn
          = .error ("Airtable table not found by name: " ++ n)) := by
  refine ⟨?_, ?_, ?_, ?_, ?_⟩
  · intro meta t hnd hmem
    have hf := find?_key_of_mem MetaTable.name meta.tables t hnd hmem
    simp [resolveTableIdByName, hf]
  · intro meta n h
    have hf : meta.tables.find? (fun t => t.name == n) = none :=
      List.find?_eq_none.mpr (fun x hx => by simpa using h x hx)
    simp [resolveTableIdByName, hf]
  · intro meta t f hnd hmem hfnd hfmem
    have hf := find?_key_of_mem MetaTable.name meta.tables t hnd hmem
    have hff := find?_key_of_mem MetaField.name t.fields f hfnd hfmem
    simp [resolveFieldIdByNames, hf, hff]
  · intro meta t fn hnd hmem h
    have hf := find?_key_of_mem MetaTable.name meta.tables t hnd hmem
    have hff : t.fields.find? (fun fl => fl.name == fn) = none :=
      List.find?_eq_none.mpr (fun x hx => by simpa using h x hx)
    simp [resolveFieldIdByNames, hf, hff]
  · intro meta n fn h
    have hf : meta.tables.find? (fun t => t.name == n) = none :=
      List.find?_eq_none.mpr (fun x hx => by simpa using h x hx)
    simp [resolveFieldIdByNames, hf]

/-- Witness for C3 at a concrete one-table, one-field metadata
response. -/
theorem resolveIds_exact_witness :
    resolveTableIdByName ⟨[⟨"tbl1", "T1", [⟨"fld1", "F1", "text"⟩]⟩]⟩ "T1"
        = .ok "tbl1"
      ∧ resolveFieldIdByNames ⟨[⟨"tbl1", "T1", [⟨"fld1", "F1", "text"⟩]⟩]⟩ "T1" "F1"
        = .ok "fld1"
      ∧ resolveTableIdByName ⟨[⟨"tbl1", "T1", [⟨"fld1", "F1", "text"⟩]⟩]⟩ "T2"
        = .error ("Airtable table not found by name: " ++ "T2") :=
  ⟨resolveIds_exact.1 ⟨[⟨"tbl1", "T1", [⟨"fld1", "F1", "text"⟩]⟩]⟩
      ⟨"tbl1", "T1", [⟨"fld1", "F1", "text"⟩]⟩ (by decide) (by decide),
   resolveIds_exact.2.2.1 ⟨[⟨"tbl1", "T1", [⟨"fld1", "F1", "text"⟩]⟩]⟩
      ⟨"tbl1", "T1", [⟨"fld1", "F1", "text"⟩]⟩ ⟨"fld1", "F1", "text"⟩
      (by decide) (by decide) (by decide) (by decide),
   resolveIds_exact.2.1 ⟨[⟨"tbl1", "T1", [⟨"fld1", "F1", "text"⟩]⟩]⟩ "T2"
      (by decide)⟩

/-- Claim C4: two sequential `getMeta` resolutions whose cache reads fall
within the freshness window of a persisted entry issue at most one
metadata HTTP call in total (part one: both reads fresh on an existing
entry; part two: any two resolutions less than the window apart); and a
resolution whose read occurs after the window has elapsed issues a new
call and overwrites the entry with the fresh payload and current
timestamp. -/
theorem getMeta_cache_window :
    (∀ (now1 now2 : Int) (e : MetaCacheEntry) (f1 f2 : MetaResponse),
        now1 - e.fetchedAt < META_CACHE_TTL_MS →
        now2 - e.fetchedAt < META_CACHE_TTL_MS →
        (getMeta now1 (some e) f1).httpCalls
          + (getMeta now2 (getMeta now1 (some e) f1).cache f2).httpCalls ≤ 1)
    ∧ (∀ (cache : Option MetaCacheEntry) (now1 now2 : Int) (f1 f2 : MetaResponse),
        now2 - now1 < META_CACHE_TTL_MS →
        (getMeta now1 cache f1).httpCalls
          + (getMeta now2 (getMeta now1 cache f1).cache f2).httpCalls ≤ 1)
    ∧ (∀ (now : Int) (e : MetaCacheEntry) (f : MetaResponse),
        META_CACHE_TTL_MS ≤ now - e.fetchedAt →
        getMeta now (some e) f = ⟨f, some ⟨now, f⟩, 1⟩) := by
  refine ⟨?_, ?_, ?_⟩
  · intro now1 now2 e f1 f2 h1 h2
    simp [getMeta, h1, h2]
  · intro cache now1 now2 f1 f2 h
    cases cache with
    | none => simp [getMeta, h]
    | some e =>
        by_cases h1 : now1 - e.fetchedAt < META_CACHE_TTL_MS
        · by_cases h2 : now2 - e.fetchedAt < META_CACHE_TTL_MS
          · simp [getMeta, h1, h2]
          · simp [getMeta, h1, h2]
        · simp [getMeta, h1, h]
  · intro now e f h
    simp [getMeta, not_lt.mpr h]

/-- Witness for C4 at a concrete cache entry and clock readings. -/
theorem getMeta_cache_window_witness :
    ((getMeta 1000 (some ⟨0, ⟨[]⟩⟩) ⟨[]⟩).httpCalls
        + (getMeta 2000 (getMeta 1000 (some ⟨0, ⟨[]⟩⟩) ⟨[]⟩).cache ⟨[]⟩).httpCalls ≤ 1)
      ∧ getMeta 600000 (some ⟨0, ⟨[]⟩⟩) ⟨[]⟩ = ⟨⟨[]⟩, some ⟨600000, ⟨[]⟩⟩, 1⟩ :=
  ⟨getMeta_cache_window.1 1000 2000 ⟨0, ⟨[]⟩⟩ ⟨[]⟩ ⟨[]⟩ (by decide) (by decide),
   getMeta_cache_window.2.2 600000 ⟨0, ⟨[]⟩⟩ ⟨[]⟩ (by decide)⟩

/-- Claim C5: a request with no resolvable token fails with the
missing-credential error before any network call; with a token, a
non-2xx response fails after one call with a message retaining the
numeric status code and, when the body text is non-empty, the body
text; a 2xx response returns the parsed payload unchanged after one
call. -/
theorem airtableFetch_error_contract :
    (∀ (α : Type) (resp : HttpResponse α),
        airtableFetch none resp
          = ⟨.error (.authMissing "Airtable API key not configured"), 0⟩)
    ∧ (∀ (α : Type) (t : String) (resp : HttpResponse α),
        t ≠ "" → ¬(200 ≤ resp.status ∧ resp.status < 300) →
        (airtableFetch (some t) resp).networkCalls = 1
          ∧ (∃ pre post, (airtableFetch (some t) resp).result
              = .error (.httpError (pre ++ toString resp.status ++ post)))
          ∧ (resp.body ≠ "" → ∃ pre2, (airtableFetch (some t) resp).result
              = .error (.httpError (pre2 ++ resp.body))))
    ∧ (∀ (α : Type) (t : String) (resp : HttpResponse α),
        t ≠ "" → 200 ≤ resp.status → resp.status < 300 →
        airtableFetch (some t) resp = ⟨.ok resp.parsed, 1⟩) := by
  refine ⟨fun α resp => rfl, ?_, ?_⟩
  · intro α t resp ht hbad
    have hok : resp.ok = false := by
      simp only [HttpResponse.ok, Bool.and_eq_false_iff, decide_eq_false_iff_not]
      omega
    refine ⟨by simp [airtableFetch, ht, hok], ⟨"Airtable error ",
      ": " ++ (if resp.body = "" then resp.statusText else resp.body),
      by simp [airtableFetch, ht, hok]; rw [String.append_assoc]⟩,
      fun hb => ?_⟩
    refine ⟨"Airtable error " ++ toString resp.status ++ ": ", ?_⟩
    simp [airtableFetch, ht, hok, hb]
  · intro α t resp ht h1 h2
    have hok : resp.ok = true := by
      simp only [HttpResponse.ok, Bool.and_eq_true, decide_eq_true_eq]
      omega
    simp [airtableFetch, ht, hok]

/-- Witness for C5 at concrete responses: a 404 with a body, and a 200
carrying a payload. -/
theorem airtableFetch_error_contract_witness :
    (airtableFetch none (⟨404, "nope", "Not Found", 7⟩ : HttpResponse Nat)
        = ⟨.error (.authMissing "Airtable API key not configured"), 0⟩)
      ∧ (airtableFetch (some "tok") (⟨404, "nope", "Not Found", 7⟩ : HttpResponse Nat)).networkCalls = 1
      ∧ airtableFetch (some "tok") (⟨200, "", "OK", 7⟩ : HttpResponse Nat)
        = ⟨.ok 7, 1⟩ :=
  ⟨airtableFetch_error_contract.1 Nat ⟨404, "nope", "Not Found", 7⟩,
   (airtableFetch_error_contract.2.1 Nat "tok" ⟨404, "nope", "Not Found", 7⟩
      (by decide) (by decide)).1,
   airtableFetch_error_contract.2.2 Nat "tok" ⟨200, "", "OK", 7⟩
      (by decide) (by decide) (by decide)⟩

/-- Claim C6: the credential resolves in order local-storage override
(trimmed, only if non-empty), then the injected global value, then the
static fallback; a storage read failure behaves exactly like a missing
key and is never propagated. -/
theorem getAirtableToken_order :
    (∀ (injected : Option String) (ls : String),
        jsTrim ls ≠ "" →
        getAirtableToken (.ok (some ls)) injected = some (jsTrim ls))
    ∧ (∀ (storageRead : Except Unit (Option String)) (w : String),
        (∀ s, storageRead = .ok (some s) → jsTrim s = "") → w ≠ "" →
        getAirtableToken storageRead (some w) = some w)
    ∧ (∀ (storageRead : Except Unit (Option String)),
        (∀ s, storageRead = .ok (some s) → jsTrim s = "") →
        getAirtableToken storageRead none = some DEV_FALLBACK_PAT
          ∧ getAirtableToken storageRead (some "") = some DEV_FALLBACK_PAT)
    ∧ (∀ (injected : Option String),
        getAirtableToken (.error ()) injected = getAirtableToken (.ok none) injected) := by
  refine ⟨?_, ?_, ?_, ?_⟩
  · intro injected ls h
    simp [getAirtableToken, h]
  · intro storageRead w h hw
    match storageRead with
    | .error () => simp [getAirtableToken, windowTokenOrFallback, hw]
    | .ok none => simp [getAirtableToken, windowTokenOrFallback, hw]
    | .ok (some s) =>
        simp [getAirtableToken, h s rfl, windowTokenOrFallback, hw]
  · intro storageRead h
    match storageRead with
    | .error () => exact ⟨rfl, rfl⟩
    | .ok none => exact ⟨rfl, rfl⟩
    | .ok (some s) =>
        constructor <;>
          simp [getAirtableToken, h s rfl, windowTokenOrFallback, fallbackPatOrNull,
            DEV_FALLBACK_PAT]
  · intro injected
    rfl

/-- Witness for C6 at concrete storage and injection states. -/
theorem getAirtableToken_order_witness :
    getAirtableToken (.ok (some "  pat  ")) (some "w") = some (jsTrim "  pat  ")
      ∧ getAirtableToken (.error ()) (some "w") = some "w"
      ∧ getAirtableToken (.ok (some "   ")) none = some DEV_FALLBACK_PAT :=
  ⟨getAirtableToken_order.1 (some "w") "  pat  " (by decide),
   getAirtableToken_order.2.1 (.error ()) "w" (fun s h => by cases h) (by decide),
   (getAirtableToken_order.2.2.1 (.ok (some "   "))
      (fun s h => by cases h; rfl)).1⟩

/-- Claim C7: `coerceToText` is total; strings are trimmed, arrays yield
the space-join of their trimmed non-empty string elements, and objects
yield the first of the keys `text`, `value`, `plain_text`, `content`,
`description` — in that priority order — holding a non-empty string or
an array with a non-empty join (one level of array recursion via
`candidateText`): each key wins exactly when every earlier key yields no
candidate, and when all five yield none the result is the empty string;
every other value (number, boolean, null, undefined) yields the empty
string; in particular the four documented examples hold, and an object
carrying only `value` and `description` resolves to the `value` key. -/
theorem coerceToText_contract :
    (∀ s, coerceToText (.str s) = jsTrim s)
    ∧ (∀ xs, coerceToText (.arr xs)
        = jsTrim (String.intercalate " "
            ((xs.map fun v => match v with | .str s => jsTrim s | _ => "").filter
              (fun s => s != ""))))
    ∧ (∀ (ps : List (String × JsValue)) (s : String),
        candidateText (JsValue.prop (.obj ps) "text") = some s →
        coerceToText (.obj ps) = s)
    ∧ (∀ (ps : List (String × JsValue)) (s : String),
        candidateText (JsValue.prop (.obj ps) "text") = none →
        candidateText (JsValue.prop (.obj ps) "value") = some s →
        coerceToText (.obj ps) = s)
    ∧ (∀ (ps : List (String × JsValue)) (s : String),
        candidateText (JsValue.prop (.obj ps) "text") = none →
        candidateText (JsValue.prop (.obj ps) "value") = none →
        candidateText (JsValue.prop (.obj ps) "plain_text") = some s →
        coerceToText (.obj ps) = s)
    ∧ (∀ (ps : List (String × JsValue)) (s : String),
        candidateText (JsValue.prop (.obj ps) "text") = none →
        candidateText (JsValue.prop (.obj ps) "value") = none →
        candidateText (JsValue.prop (.obj ps) "plain_text") = none →
        candidateText (JsValue.prop (.obj ps) "content") = some s →
        coerceToText (.obj ps) = s)
    ∧ (∀ (ps : List (String × JsValue)) (s : String),
        candidateText (JsValue.prop (.obj ps) "text") = none →
        candidateText (JsValue.prop (.obj ps) "value") = none →
        candidateText (JsValue.prop (.obj ps) "plain_text") = none →
        candidateText (JsValue.prop (.obj ps) "content") = none →
        candidateText (JsValue.prop (.obj ps) "description") = some s →
        coerceToText (.obj ps) = s)
    ∧ (∀ ps : List (String × JsValue),
        candidateText (JsValue.prop (.obj ps) "text") = none →
        candidateText (JsValue.prop (.obj ps) "value") = none →
        candidateText (JsValue.prop (.obj ps) "plain_text") = none →
        candidateText (JsValue.prop (.obj ps) "content") = none →
        candidateText (JsValue.prop (.obj ps) "description") = none →
        coerceToText (.obj ps) = "")
    ∧ (∀ n, coerceToText (.num n) = "")
    ∧ (∀ b, coerceToText (.boolean b) = "")
    ∧ coerceToText .null = ""
    ∧ coerceToText .undefined = ""
    ∧ coerceToText (.str "  hello  ") = "hello"
    ∧ coerceToText (.arr [.str "a", .str "", .str "b"]) = "a b"
    ∧ coerceToText (.obj [("text", .str "x")]) = "x"
    ∧ coerceToText (.num 42) = ""
    ∧ coerceToText (.obj [("value", .str "v"), ("description", .str "d")]) = "v" := by
  refine ⟨fun s => rfl, fun xs => rfl, ?_, ?_, ?_, ?_, ?_, ?_,
    fun n => rfl, fun b => rfl, rfl, rfl, rfl, rfl, rfl, rfl, rfl⟩
  · intro ps s h1
    simp [coerceToText, probeCandidates, h1]
  · intro ps s h1 h2
    simp [coerceToText, probeCandidates, h1, h2]
  · intro ps s h1 h2 h3
    simp [coerceToText, probeCandidates, h1, h2, h3]
  · intro ps s h1 h2 h3 h4
    simp [coerceToText, probeCandidates, h1, h2, h3, h4]
  · intro ps s h1 h2 h3 h4 h5
    simp [coerceToText, probeCandidates, h1, h2, h3, h4, h5]
  · intro ps h1 h2 h3 h4 h5
    simp [coerceToText, probeCandidates, h1, h2, h3, h4, h5]

/-- Witness for C7 at concrete objects: a `text` hit, a `value` hit with
`text` absent (the order-distinguishing case), a `description` hit with
the four earlier keys absent, and an object with no candidate at all. -/
theorem coerceToText_contract_witness :
    coerceToText (.obj [("text", .str " x ")]) = jsTrim " x "
      ∧ coerceToText (.obj [("value", .str "v"), ("description", .str "d")]) = "v"
      ∧ coerceToText (.obj [("description", .arr [.str "a", .str "b"])])
        = joinStringParts [.str "a", .str "b"]
      ∧ coerceToText (.obj [("foo", .str "z"), ("text", .str "  ")]) = "" :=
  ⟨coerceToText_contract.2.2.1 [("text", .str " x ")] (jsTrim " x ") rfl,
   coerceToText_contract.2.2.2.1 [("value", .str "v"), ("description", .str "d")]
      "v" rfl rfl,
   coerceToText_contract.2.2.2.2.2.2.1 [("description", .arr [.str "a", .str "b"])]
      (joinStringParts [.str "a", .str "b"]) rfl rfl rfl rfl rfl,
   coerceToText_contract.2.2.2.2.2.2.2.1 [("foo", .str "z"), ("text", .str "  ")]
      rfl rfl rfl rfl rfl⟩

/-- Claim C8: `getAttachmentArray` keeps, in input order, exactly the
entries exposing truthy `id`, `url` and `filename` values, as triples
of those values; every other entry is dropped, any non-array input
yields the empty list, and the documented example keeps only its first
entry. -/
theorem getAttachmentArray_contract :
    (∀ es, getAttachmentArray (.arr es)
        = (es.filter exposesAttachmentTriple).map
            (fun a => (a.prop "id", a.prop "url", a.prop "filename")))
    ∧ (∀ v : JsValue, (∀ es, v ≠ .arr es) → getAttachmentArray v = [])
    ∧ getAttachmentArray (.arr
        [.obj [("id", .str "a1"), ("url", .str "u"), ("filename", .str "f")],
         .obj [("id", .str "a2")]])
      = [(.str "a1", .str "u", .str "f")] := by
  refine ⟨getAttachmentArray_arr, fun v hv => ?_, rfl⟩
  cases v <;> first | rfl | exact absurd rfl (hv _)

/-- Witness for C8 at a concrete non-array input. -/
theorem getAttachmentArray_contract_witness :
    getAttachmentArray (.num 3) = [] :=
  getAttachmentArray_contract.2.1 (.num 3) (fun es h => by cases h)

/-- Claim C9: `slugify` is a pure function of the title (two calls with
the same title give the same string), and its output contains only
lowercase alphanumerics and single separators (no two adjacent
separators); in particular the documented title slugs identically on
repeated calls. -/
theorem slugify_stable_charset :
    (∀ t : String, slugify t = slugify t
        ∧ ((slugify t).data.all (fun c => c.isLower || c.isDigit || c == '-')) = true
        ∧ noAdjacentSeparators (slugify t).data = true)
    ∧ slugify "MTM The Future Today" = "mtm-the-future-today"
    ∧ slugify "MTM The Future Today" = slugify "MTM The Future Today" := by
  refine ⟨fun t => ⟨rfl, ?_, ?_⟩, rfl, rfl⟩
  · exact slugifyAux_all t.data false
  · exact (slugifyAux_sep t.data false).1

/-- Helper: the window-injection and fallback tail of the credential
chain always yields a non-empty token, because the embedded fallback is
a non-empty constant. -/
theorem windowTokenOrFallback_ne (injected : Option String) :
    ∃ tok, windowTokenOrFallback injected = some tok ∧ tok ≠ "" := by
  cases injected with
  | none => exact ⟨DEV_FALLBACK_PAT, rfl, by decide⟩
  | some w =>
      by_cases hw : w = ""
      · subst hw
        exact ⟨DEV_FALLBACK_PAT, rfl, by decide⟩
      · exact ⟨w, by simp [windowTokenOrFallback, hw], hw⟩

/-- Helper: the credential resolver always yields a non-empty token. -/
theorem getAirtableToken_ne (storageRead : Except Unit (Option String))
    (injected : Option String) :
    ∃ tok, getAirtableToken storageRead injected = some tok ∧ tok ≠ "" := by
  match storageRead with
  | .error () => exact windowTokenOrFallback_ne injected
  | .ok none => exact windowTokenOrFallback_ne injected
  | .ok (some s) =>
      by_cases h : jsTrim s = ""
      · simpa [getAirtableToken, h] using windowTokenOrFallback_ne injected
      · exact ⟨jsTrim s, by simp [getAirtableToken, h], h⟩

/-- Claim C10: the credential resolver never returns the absent value —
it always yields a non-empty token — and consequently the
missing-credential branches of `airtableFetch` and `fetchMeta` are
unreachable: with the resolved token every request issues exactly one
network call and never fails with the missing-credential error. -/
theorem getAirtableToken_never_absent :
    ∀ (storageRead : Except Unit (Option String)) (injected : Option String),
      (∃ tok, getAirtableToken storageRead injected = some tok ∧ tok ≠ "")
      ∧ (∀ (α : Type) (resp : HttpResponse α),
          (airtableFetch (getAirtableToken storageRead injected) resp).isAuthMissing
              = false
            ∧ (airtableFetch (getAirtableToken storageRead injected) resp).networkCalls
              = 1)
      ∧ (∀ resp : HttpResponse MetaResponse,
          (fetchMeta (getAirtableToken storageRead injected) resp).isAuthMissing
              = false
            ∧ (fetchMeta (getAirtableToken storageRead injected) resp).networkCalls
              = 1) := by
  intro storageRead injected
  obtain ⟨tok, htok, hne⟩ := getAirtableToken_ne storageRead injected
  refine ⟨⟨tok, htok, hne⟩, ?_, ?_⟩
  · intro α resp
    rw [htok]
    by_cases hok : resp.ok = true
    · simp [airtableFetch, hne, hok, FetchOutcome.isAuthMissing]
    · simp [airtableFetch, hne, hok, FetchOutcome.isAuthMissing]
  · intro resp
    rw [htok]
    by_cases hok : resp.ok = true
    · simp [fetchMeta, hne, hok, FetchOutcome.isAuthMissing]
    · simp [fetchMeta, hne, hok, FetchOutcome.isAuthMissing]
